import Mathlib

/-!
Verification of the kanowins Slack "WINS" service (Go, AWS Lambda).

Shallow embedding of the two core handlers:

* `src/handlers/KanowinsCommand/main.go` — slash-command intake
  (`Handler`), summary aggregation and delivery (`getSummary`).
* `src/handlers/KanowinsInteractiveComponent/main.go` — dialog submission
  capture and persistence (`Handler`, `Request.PutItem`).

Modelling conventions:

* Timestamps are integer Unix seconds.  Go's `time.Time` carries a
  location; `GoTime` models it as the Unix instant plus a `Location`
  (an offset-lookup function mirroring `time.Location.lookup`).
* Fallible external effects (DynamoDB session/scan/put, outbound HTTP
  calls, JSON decoding of response bodies) are passed in as oracle
  values (`Option String` is the returned `error`); the handlers'
  control flow over these oracles is translated line by line from the
  source.
* Go string lengths/indexing: the bodies involved are treated as
  character sequences; for the ASCII data the handlers compare against
  this is byte-exact.
-/

/-! ### Proleptic Gregorian calendar

`time.AddDate`/`time.Date` decompose a time into civil (year, month,
day, hour, minute, second) fields and rebuild an instant.  The civil
day conversions below implement the proleptic Gregorian calendar used
by Go's `time` package (extensionally equal to Go's `absDate`/`Date`
day arithmetic; written in the standard days-from-civil form with
Euclidean division, which is floor division since all divisors are
positive). -/

/-- Year of era (0..399) from day of era (0..146096), as in the standard
civil-days algorithm used to implement `time.Time` decomposition. -/
def yoeOfDoe (doe : Int) : Int :=
  (doe - doe / 1460 + doe / 36524 - doe / 146096) / 365

/-- Days since 1970-01-01 to civil (year, month, day), proleptic Gregorian. -/
def civilFromDays (z0 : Int) : Int × Int × Int :=
  let z := z0 + 719468
  let era := z / 146097
  let doe := z - era * 146097
  let yoe := yoeOfDoe doe
  let doy := doe - (365 * yoe + yoe / 4 - yoe / 100)
  let mp := (5 * doy + 2) / 153
  let d := doy - (153 * mp + 2) / 5 + 1
  let m := mp + (if mp < 10 then 3 else -9)
  (yoe + era * 400 + (if m ≤ 2 then 1 else 0), m, d)

/-- Civil (year, month, day) to days since 1970-01-01, proleptic Gregorian.
Linear in `d`, matching Go's `Date`, which adds `day - 1` to the day count
without first clamping the day into the month. -/
def daysFromCivil (y0 m d : Int) : Int :=
  let y := y0 - (if m ≤ 2 then 1 else 0)
  let era := y / 400
  let yoe := y - era * 400
  let doy := (153 * (m + (if 2 < m then -3 else 9)) + 2) / 5 + d - 1
  let doe := 365 * yoe + yoe / 4 - yoe / 100 + doy
  era * 146097 + doe - 719468

/-! ### Go `time` model -/

/-- Model of `time.Location`: an offset lookup.  `lookupOff utcSec` returns the
zone's `(offset, start, end)` as in Go's `Location.lookup`: the UTC
offset in seconds in force at `utcSec`, and the UTC interval
`[start, end)` on which that offset applies. -/
structure Location where
  lookupOff : Int → Int × Int × Int

/-- Go's `alpha` sentinel (`math.MinInt64`): start of time for zone lookup. -/
def alphaSent : Int := -9223372036854775808

/-- Go's `omega` sentinel (`math.MaxInt64`): end of time for zone lookup. -/
def omegaSent : Int := 9223372036854775807

/-- A fixed-offset location (no transitions), e.g. UTC. -/
def fixedLoc (off : Int) : Location :=
  ⟨fun _ => (off, alphaSent, omegaSent)⟩

/-- UTC, the default `time.Local` on the deployment platform. -/
def utcLoc : Location := fixedLoc 0

/-- A location with a single zone transition at UTC instant `trans`,
offset `off1` before and `off2` after (models one DST change). -/
def twoZoneLoc (trans off1 off2 : Int) : Location :=
  ⟨fun t => if t < trans then (off1, alphaSent, trans) else (off2, trans, omegaSent)⟩

/-- US Eastern around the 2019 spring-forward transition
(2019-03-10 07:00 UTC = 1552114800): EST (UTC-5) then EDT (UTC-4). -/
def nyMarch2019Loc : Location := twoZoneLoc 1552114800 (-18000) (-14400)

/-- Model of `time.Time`: a Unix instant (seconds) together with its location. -/
structure GoTime where
  unix : Int
  loc : Location

/-- Offset in force at UTC instant `sec` (first component of the lookup). -/
def offsetAt (loc : Location) (sec : Int) : Int :=
  (loc.lookupOff sec).1

/-- Seconds of local civil time for `t`: `unix + offset(unix)`, the basis
for Go's `Time.Date`/`Time.Clock` decomposition. -/
def localSec (t : GoTime) : Int :=
  t.unix + offsetAt t.loc t.unix

/-- Go's `norm(hi, lo, base)` for positive `base`: carry `lo` into `hi` so
that the low component lands in `[0, base)`.  Go implements this with two
conditional adjustments; for positive `base` that is exactly floor
division and remainder. -/
def timeNorm (hi lo base : Int) : Int × Int :=
  (hi + lo / base, lo % base)

/-- Go `Time.Date()`: civil (year, month, day) of `t` in its location. -/
def dateOf (t : GoTime) : Int × Int × Int :=
  civilFromDays (localSec t / 86400)

/-- Go `Time.Clock()`: (hour, minute, second) of `t` in its location. -/
def clockOf (t : GoTime) : Int × Int × Int :=
  let s := localSec t % 86400
  (s / 3600, s % 3600 / 60, s % 60)

/-- The zone-resolution step at the end of Go's `time.Date`: `pseudo` is
the civil time read as if UTC; look up the zone there, and if the offset
is non-zero adjust, re-looking-up when the adjusted instant falls outside
the zone's validity window. -/
def zoneResolve (loc : Location) (pseudo : Int) : Int :=
  let (off, zstart, zend) := loc.lookupOff pseudo
  if off ≠ 0 then
    let utc := pseudo - off
    let off := if utc < zstart ∨ zend ≤ utc then (loc.lookupOff utc).1 else off
    pseudo - off
  else pseudo

/-- Go's `time.Date(year, month, day, hour, min, sec, 0, loc)`:
normalise the clock fields into the day and the month into the year
(`norm`), linearise to seconds-as-if-UTC, then resolve the zone offset. -/
def goDate (year month day hour minute sec : Int) (loc : Location) : GoTime :=
  let (minute, sec) := timeNorm minute sec 60
  let (hour, minute) := timeNorm hour minute 60
  let (day, hour) := timeNorm day hour 24
  let (year, m) := timeNorm year (month - 1) 12
  let month := m + 1
  let pseudo := daysFromCivil year month day * 86400
    + hour * 3600 + minute * 60 + sec
  ⟨zoneResolve loc pseudo, loc⟩

/-- Go `Time.AddDate(years, months, days)`: decompose, add, rebuild. -/
def addDate (t : GoTime) (years months days : Int) : GoTime :=
  let (y, m, d) := dateOf t
  let (hh, mi, ss) := clockOf t
  goDate (y + years) (m + months) (d + days) hh mi ss t.loc

/-! ### Form body parsing

`Handler` does `form, err := url.Parse("?" + r.Body)` (error only logged)
followed by `query, _ := url.ParseQuery(form.RawQuery)` and then indexes
`query[field][0]`.  `url.Parse` cuts the fragment at the first `#` and
fails on ASCII control characters or invalid percent escapes in the
fragment; on failure `form` is nil and `form.RawQuery` panics. -/

/-- Value of a hex digit, as in `net/url`'s `unhex`. -/
def hexVal (c : Char) : Option Nat :=
  if '0' ≤ c ∧ c ≤ '9' then some (c.toNat - '0'.toNat)
  else if 'a' ≤ c ∧ c ≤ 'f' then some (c.toNat - 'a'.toNat + 10)
  else if 'A' ≤ c ∧ c ≤ 'F' then some (c.toNat - 'A'.toNat + 10)
  else none

/-- Go `url.QueryUnescape`: decode `%XX`, map `+` to space, fail on a bad or
truncated escape. -/
def queryUnescape : List Char → Option (List Char)
  | [] => some []
  | '%' :: a :: b :: rest =>
    match hexVal a, hexVal b with
    | some x, some y => (queryUnescape rest).map (Char.ofNat (16 * x + y) :: ·)
    | _, _ => none
  | ['%'] => none
  | ['%', _] => none
  | '+' :: rest => (queryUnescape rest).map (' ' :: ·)
  | c :: rest => (queryUnescape rest).map (c :: ·)

/-- Go `strings.Cut(s, "=")`: the part before the first `=` and the part
after it (everything, and empty, when there is no `=`). -/
def cutOnEq : List Char → List Char × List Char
  | [] => ([], [])
  | '=' :: rest => ([], rest)
  | c :: rest =>
    let (k, v) := cutOnEq rest
    (c :: k, v)

/-- Split a character list on a separator (Go's sequential
`strings.Cut(query, "&")` loop visits exactly these segments). -/
def splitOnChar (sep : Char) : List Char → List (List Char)
  | [] => [[]]
  | c :: rest =>
    if c = sep then [] :: splitOnChar sep rest
    else
      match splitOnChar sep rest with
      | s :: ss => (c :: s) :: ss
      | [] => [[c]]

/-- Go `url.ParseQuery` over a raw query string: split on `&`, skip empty
segments, reject segments containing `;`, split each segment at the
first `=`, unescape key and value, and skip the pair when either
unescape fails (the accumulated error is discarded by the caller). -/
def parseQuery (raw : String) : List (String × String) :=
  (splitOnChar '&' raw.data).filterMap fun seg =>
    if seg.isEmpty then none
    else if seg.any (· = ';') then none
    else
      let (k, v) := cutOnEq seg
      match queryUnescape k, queryUnescape v with
      | some k', some v' => some (⟨k'⟩, ⟨v'⟩)
      | _, _ => none

/-- The `url.Values` lookup: all values stored under key `k`, in order. -/
def getAll (q : List (String × String)) (k : String) : List String :=
  (q.filter (·.1 = k)).map (·.2)

/-- The `RawQuery` of `url.Parse ("?" ++ body)`: the body up to the first `#`. -/
def rawQueryOf (body : String) : String :=
  ⟨body.data.takeWhile (· ≠ '#')⟩

/-- Fragment of `url.Parse ("?" ++ body)`: the part after the first `#`. -/
def fragmentOf (body : String) : List Char :=
  ((body.data.dropWhile (· ≠ '#')).drop 1)

/-- ASCII control bytes make `url.Parse` fail
(`net/url: invalid control character in URL`). -/
def containsCtl (s : String) : Bool :=
  s.data.any fun c => c.toNat < 32 ∨ c.toNat = 127

/-- Percent escapes must be two hex digits for the fragment to parse. -/
def validPctEscapes : List Char → Bool
  | [] => true
  | '%' :: a :: b :: rest =>
    (hexVal a).isSome && (hexVal b).isSome && validPctEscapes rest
  | ['%'] => false
  | ['%', _] => false
  | _ :: rest => validPctEscapes rest

/-- Whether `url.Parse ("?" ++ body)` fails (so `form` is nil and the subsequent
`form.RawQuery` dereference panics) exactly on a control character or an
invalid percent escape in the fragment part. -/
def urlParseFails (body : String) : Bool :=
  containsCtl body || !validPctEscapes (fragmentOf body)

/-! ### Shared data model -/

/-- The `Win` record persisted to DynamoDB (identical struct in both
handler packages).  Timestamps are `GoTime`; `ttl` is the Unix-seconds
expiry stored in the table's TTL attribute. -/
structure Win where
  user_id : String
  user_name : String
  who : String
  title : String
  description : String
  created_at : GoTime
  updated_at : GoTime
  ttl : Int

/-- The `WinSummary` row built by `getSummary` for the report. -/
structure WinSummary where
  who : String
  title : String
  description : String
  created_at : String
deriving DecidableEq, Repr

/-- Left-pad a decimal rendering to two digits (values 0..59 / 1..12). -/
def pad2 (n : Int) : String :=
  if n < 10 then "0" ++ toString n else toString n

/-- The source's `win.CreatedAt.Format(time.RFC3339)[:19]`: the local civil date-time
of the instant, truncated to whole seconds and without the offset
suffix (byte slicing at 19 keeps exactly `YYYY-MM-DDThh:mm:ss` for
four-digit years). -/
def rfc3339Trunc (t : GoTime) : String :=
  let ls := localSec t
  let ymd := civilFromDays (ls / 86400)
  let s := ls % 86400
  (toString ymd.1 ++ "-" ++ pad2 ymd.2.1 ++ "-" ++ pad2 ymd.2.2 ++ "T"
    ++ pad2 (s / 3600) ++ ":" ++ pad2 (s % 3600 / 60) ++ ":" ++ pad2 (s % 60)).take 19

/-- The summary row for one win (lines 250–255 of the Command handler). -/
def rowOf (w : Win) : WinSummary :=
  ⟨w.who, w.title, w.description, rfc3339Trunc w.created_at⟩

/-- The 12-hour recency test `time.Now().Sub(win.CreatedAt).Hours() > 12.0`
at integer-second granularity.  `Sub` is the difference of the instants in
nanoseconds and `Hours()` divides by 3.6e12 in `float64`; both 12h in
nanoseconds and the duration are exact near the threshold (well under one
`ulp` of 12.0 apart only at equality), so the comparison holds exactly
when the difference strictly exceeds 43200 seconds. -/
def olderThan12h (now : GoTime) (w : Win) : Bool :=
  43200 < now.unix - w.created_at.unix

/-- The filter-and-collect loop of `getSummary` (lines 247–257): keep the
summary row of every win strictly older than 12 hours, in scan order. -/
def winsSummaryOf (now : GoTime) : List Win → List WinSummary
  | [] => []
  | w :: ws =>
    if olderThan12h now w then rowOf w :: winsSummaryOf now ws
    else winsSummaryOf now ws

/-! ### Command Intake (`KanowinsCommand`) -/

/-- The decoded slash-command `Request` (field per form field). -/
structure CmdRequest where
  token : String
  teamId : String
  teamDomain : String
  channelId : String
  channelName : String
  userId : String
  userName : String
  text : String
  triggerId : String
  responseUrl : String
deriving DecidableEq, Repr

/-- Go `strings.ToLower` as the handler applies it to the command text.
Go lowercases all Unicode; this maps the ASCII range, which agrees with
Go on the comparison against `"summary"` (no non-ASCII uppercase letter
lowercases to any of `s`, `u`, `m`, `a`, `r`, `y`). -/
def asciiToLower (c : Char) : Char :=
  if 'A' ≤ c ∧ c ≤ 'Z' then Char.ofNat (c.toNat + 32) else c

/-- Lowercase a string character-wise. -/
def sToLower (s : String) : String := ⟨s.data.map asciiToLower⟩

/-- Go `strings.TrimSpace`: drop leading and trailing whitespace.  The
handler does NOT apply this anywhere; it is defined here only to state
what the specification asserts about trimmed command arguments. -/
def trimSpace (s : String) : String :=
  ⟨((s.data.dropWhile Char.isWhitespace).reverse.dropWhile Char.isWhitespace).reverse⟩

/-- Environment configuration the Command handler reads. -/
structure CmdEnv where
  slackVerificationToken : String
  slackAccessToken : String

/-- An `APIGatewayProxyResponse` as the handlers build it. -/
structure Response where
  statusCode : Int
  isBase64Encoded : Bool
  body : String
  headers : List (String × String)
deriving DecidableEq, Repr

/-- The `Content-Type: application/json` header map every response carries. -/
def ctJson : List (String × String) := [("Content-Type", "application/json")]

/-- Outbound I/O performed by the Command handler, in order: the DynamoDB
scan (`GetWins`), the summary delivery `POST` to the request's
`response_url` (carrying the rows whose indented-JSON rendering is
embedded in the posted text), and the `POST` to the dialog-open endpoint
for a trigger id. -/
inductive OutCall where
  | scanStore : OutCall
  | summaryPost (url : String) (rows : List WinSummary) : OutCall
  | dialogOpen (triggerId : String) : OutCall
deriving DecidableEq, Repr

/-- Result of one Command-handler invocation: either a runtime panic
(so no HTTP response is produced by the function) or a response together
with the outbound calls issued. -/
inductive CmdOutcome where
  | panic : CmdOutcome
  | resp (r : Response) (calls : List OutCall) : CmdOutcome
deriving DecidableEq, Repr

/-- Outbound calls of an outcome (none for a panic). -/
def callsOf : CmdOutcome → List OutCall
  | .panic => []
  | .resp _ cs => cs

/-- Oracles for the fallible external effects of `getSummary`:
`scan` is `GetWins()`'s `(wins, err)` (partial wins on error),
`newReqErr` is `http.NewRequest` for the response URL, `postErr` is
`client.Do`, and `ackErr` is the JSON decode of the acknowledgement
body.  `none` means the call succeeded. -/
structure SummaryOracles where
  scan : List Win × Option String
  newReqErr : Option String
  postErr : Option String
  ackErr : Option String

/-- Oracles for one Command-handler invocation.  Marshalling the dialog
payload and `http.NewRequest` on the constant `dialog.open` endpoint are
deterministic successes, so only `client.Do` and the response-body decode
are oracles there; neither affects the handler's response. -/
structure CmdOracles where
  summary : SummaryOracles
  dialogPostErr : Option String
  dialogAckErr : Option String

/-- The source's `getSummary` (lines 241–287): scan, filter/format, `POST` the report
to `request.ResponseURL`, then decode the acknowledgement body — the
decode's error is assigned to the named return `err` just before the
final `return`, so it propagates.  Returns the calls issued, the `wins`
value, and the returned error. -/
def getSummary (request : CmdRequest) (now : GoTime) (o : SummaryOracles) :
    List OutCall × List Win × Option String :=
  match o.scan with
  | (wins, some e) => ([.scanStore], wins, some e)
  | (wins, none) =>
    let rows := winsSummaryOf now wins
    match o.newReqErr with
    | some e => ([.scanStore], wins, some e)
    | none =>
      match o.postErr with
      | some e => ([.scanStore, .summaryPost request.responseUrl rows], wins, some e)
      | none =>
        match o.ackErr with
        | some e => ([.scanStore, .summaryPost request.responseUrl rows], wins, some e)
        | none => ([.scanStore, .summaryPost request.responseUrl rows], wins, none)

/-- Build the `Request` struct (lines 125–136): each field indexes
element 0 of the value list for its form key, which panics when the
list is empty; `none` here stands for that panic. -/
def decodeCmdRequest (q : List (String × String)) : Option CmdRequest :=
  match (getAll q "token").head?, (getAll q "team_id").head?,
      (getAll q "team_domain").head?, (getAll q "channel_id").head?,
      (getAll q "channel_name").head?, (getAll q "user_id").head?,
      (getAll q "user_name").head?, (getAll q "text").head?,
      (getAll q "trigger_id").head?, (getAll q "response_url").head? with
  | some tok, some tid, some tdo, some cid, some cna, some uid, some una,
      some txt, some tri, some rur =>
    some ⟨tok, tid, tdo, cid, cna, uid, una, txt, tri, rur⟩
  | _, _, _, _, _, _, _, _, _, _ => none

/-- The Command `Handler` (lines 118–231): parse the form body, build the
request (panicking on a missing field), check the verification token
(400), run the summary flow when the lowercased text is `"summary"`
(400 on its error), then marshal and send the dialog-open request —
whose failure is only logged — and answer 200 with an empty body. -/
def cmdHandler (env : CmdEnv) (now : GoTime) (o : CmdOracles) (body : String) :
    CmdOutcome :=
  if urlParseFails body then .panic
  else
    match decodeCmdRequest (parseQuery (rawQueryOf body)) with
    | none => .panic
    | some request =>
      if request.token ≠ env.slackVerificationToken then
        .resp ⟨400, false,
          "KanowinsCommand submitting - error: invalid verification token",
          ctJson⟩ []
      else if sToLower request.text = "summary" then
        match getSummary request now o.summary with
        | (calls, _, some e) =>
          .resp ⟨400, false, "KanowinsCommand summary - error: " ++ e, ctJson⟩ calls
        | (calls, _, none) =>
          .resp ⟨200, false, "", ctJson⟩ (calls ++ [.dialogOpen request.triggerId])
      else
        .resp ⟨200, false, "", ctJson⟩ [.dialogOpen request.triggerId]

/-! ### Dialog Capture (`KanowinsInteractiveComponent`) -/

/-- The dialog `submission` values. -/
structure Submission where
  who : String
  title : String
  description : String
deriving DecidableEq, Repr

/-- The submitting `user`. -/
structure IUser where
  id : String
  name : String
deriving DecidableEq, Repr

/-- The decoded interaction `Request` (payload JSON). -/
structure IRequest where
  type : String
  submission : Submission
  callback_id : String
  user : IUser
  action_ts : String
  token : String
  response_url : String
deriving DecidableEq, Repr

/-- The zero value `Request{}` the handler starts from before
`json.Unmarshal`. -/
def zeroIRequest : IRequest :=
  ⟨"", ⟨"", "", ""⟩, "", ⟨"", ""⟩, "", "", ""⟩

/-- The source's `Request.PutItem` (lines 79–118): default the description, stamp
`created_at`/`updated_at` with `now`, and — once the DB session exists —
set `TTL = UpdatedAt.AddDate(0, 0, 7).Unix()` and write the item.
`dbErr` is `GetDB()` and `putErr` is `srv.PutItem` (marshalling this
struct cannot fail).  Returns the method's error and the record written
when the write succeeded. -/
def putItem (request : IRequest) (now : GoTime) (dbErr putErr : Option String) :
    Option String × Option Win :=
  let description :=
    if request.submission.description.length = 0 then "Big WIN!"
    else request.submission.description
  let win : Win :=
    { user_id := request.user.id
      user_name := request.user.name
      who := request.submission.who
      title := request.submission.title
      description := description
      created_at := now
      updated_at := now
      ttl := 0 }
  match dbErr with
  | some e => (some e, none)
  | none =>
    let win := { win with ttl := (addDate win.updated_at 0 0 7).unix }
    match putErr with
    | some e => (some e, none)
    | none => (none, some win)

/-- Result of one Dialog-Capture invocation. -/
inductive ICOutcome where
  | panic : ICOutcome
  | resp (r : Response) : ICOutcome
deriving DecidableEq, Repr

/-- The Dialog-Capture `Handler` (lines 121–148): parse the form body,
index `query["payload"][0]` (panicking when absent), `json.Unmarshal`
the payload into the request — on error only logging, continuing with
whatever the decode left in the struct (`dec`'s error value carries it;
the zero value in the common case) — run `PutItem` whose error is only
logged, and always answer 200 with an empty body. -/
def icHandler (body : String) (dec : Except (String × IRequest) IRequest)
    (now : GoTime) (dbErr putErr : Option String) : ICOutcome :=
  if urlParseFails body then .panic
  else
    match (getAll (parseQuery (rawQueryOf body)) "payload").head? with
    | none => .panic
    | some _payload =>
      let request := match dec with | .ok r => r | .error (_, r) => r
      let _ := putItem request now dbErr putErr
      .resp ⟨200, false, "", ctJson⟩

/-! ### Calendar lemmas -/

set_option maxHeartbeats 16000000 in
/-- Bounds for the year-of-era formula: on one 400-year era the computed
year of era lies in `[0, 399]` and the remaining day of year in
`[0, 365]`.  The year-of-era division resists a single linear pass, so
the 400 possible values are enumerated. -/
theorem yoe_doy_bounds (doe : Int) (h0 : 0 ≤ doe) (h1 : doe < 146097) :
    0 ≤ yoeOfDoe doe ∧ yoeOfDoe doe ≤ 399 ∧
    0 ≤ doe - (365 * yoeOfDoe doe + yoeOfDoe doe / 4 - yoeOfDoe doe / 100) ∧
    doe - (365 * yoeOfDoe doe + yoeOfDoe doe / 4 - yoeOfDoe doe / 100) ≤ 365 := by
  unfold yoeOfDoe
  set yoe := (doe - doe / 1460 + doe / 36524 - doe / 146096) / 365 with hyoe
  have h2 : 0 ≤ yoe := by omega
  have h3 : yoe ≤ 399 := by omega
  refine ⟨h2, h3, ?_⟩
  interval_cases yoe <;> omega

/-- The civil conversions invert: rebuilding the day count from the
decomposed date gives back the day count, and the decomposed month is a
real month.  This is the correctness of Go's `Date()`/`time.Date`
round-trip used by `AddDate`. -/
theorem daysFromCivil_civilFromDays (z y m d : Int)
    (h : civilFromDays z = (y, m, d)) :
    daysFromCivil y m d = z ∧ 1 ≤ m ∧ m ≤ 12 := by
  simp only [civilFromDays, Prod.mk.injEq] at h
  obtain ⟨hy, hm, hd⟩ := h
  set B := (z + 719468) / 146097 with hBdef
  have hb := yoe_doy_bounds (z + 719468 - B * 146097) (by omega) (by omega)
  set A := yoeOfDoe (z + 719468 - B * 146097) with hAdef
  set doy := z + 719468 - B * 146097 - (365 * A + A / 4 - A / 100) with hdoyDef
  set mp := (5 * doy + 2) / 153 with hmpDef
  rw [hm] at hy
  have hmp0 : 0 ≤ mp := by omega
  have hmp1 : mp ≤ 11 := by omega
  by_cases hc : mp < 10
  · simp only [if_pos hc] at hm
    have hm2 : ¬ (m ≤ 2) := by omega
    rw [if_neg hm2, add_zero] at hy
    subst hy hm hd
    refine ⟨?_, by omega, by omega⟩
    simp only [daysFromCivil]
    rw [if_neg (show ¬ (mp + 3 ≤ 2) by omega), sub_zero]
    rw [if_pos (show 2 < mp + 3 by omega)]
    rw [show (A + B * 400) / 400 = B by omega]
    rw [show A + B * 400 - B * 400 = A by ring]
    omega
  · simp only [if_neg hc] at hm
    have hm2 : m ≤ 2 := by omega
    rw [if_pos hm2] at hy
    subst hy hm hd
    refine ⟨?_, by omega, by omega⟩
    simp only [daysFromCivil]
    rw [if_pos (show mp + -9 ≤ 2 by omega)]
    rw [if_neg (show ¬ (2 < mp + -9) by omega)]
    rw [show A + B * 400 + 1 - 1 = A + B * 400 by ring]
    rw [show (A + B * 400) / 400 = B by omega]
    rw [show A + B * 400 - B * 400 = A by ring]
    omega

/-- Linearity of `daysFromCivil` in the day argument (Go's `Date` adds
`day - 1` days without clamping). -/
theorem daysFromCivil_add_days (y m d k : Int) :
    daysFromCivil y m (d + k) = daysFromCivil y m d + k := by
  simp only [daysFromCivil]
  split_ifs <;> omega

/-- When the clock fields are in range and the month is a real month, the
`norm` chain in `goDate` is the identity, so `goDate` is the zone
resolution of the linearised civil seconds.  The day may be out of
range (that is how `AddDate` feeds it). -/
theorem goDate_eq (y m d hh mi ss : Int) (loc : Location)
    (hm : 1 ≤ m ∧ m ≤ 12) (hhh : 0 ≤ hh ∧ hh < 24)
    (hmi : 0 ≤ mi ∧ mi < 60) (hss : 0 ≤ ss ∧ ss < 60) :
    goDate y m d hh mi ss loc =
      ⟨zoneResolve loc (daysFromCivil y m d * 86400 + hh * 3600 + mi * 60 + ss),
        loc⟩ := by
  simp only [goDate, timeNorm]
  have e1 : ss / 60 = 0 := by omega
  have e2 : ss % 60 = ss := by omega
  have e3 : mi / 60 = 0 := by omega
  have e4 : mi % 60 = mi := by omega
  have e5 : hh / 24 = 0 := by omega
  have e6 : hh % 24 = hh := by omega
  have e7 : (m - 1) / 12 = 0 := by omega
  have e8 : (m - 1) % 12 = m - 1 := by omega
  simp only [e1, e3, e5, e7, add_zero]
  simp only [e1, add_zero, e2, e3, e4, e5, e6, e7, e8]
  norm_num

/-- Applying `AddDate(0, 0, 7)` on a fixed-offset location advances the instant by
exactly `7 × 86400` seconds: the offset applied when decomposing equals
the offset resolved when rebuilding, so it cancels. -/
theorem addDate7_fixedLoc (u c : Int) :
    (addDate ⟨u, fixedLoc c⟩ 0 0 7).unix = u + 604800 := by
  have hloc : localSec ⟨u, fixedLoc c⟩ = u + c := by
    simp [localSec, offsetAt, fixedLoc]
  rcases hcd : civilFromDays ((u + c) / 86400) with ⟨y, m, d⟩
  have hrt := daysFromCivil_civilFromDays ((u + c) / 86400) y m d hcd
  simp only [addDate, dateOf, clockOf, hloc, hcd]
  rw [goDate_eq (y + 0) (m + 0) (d + 7) _ _ _ _
    (by omega) (by omega) (by omega) (by omega)]
  simp only [add_zero, daysFromCivil_add_days, hrt.1]
  simp only [zoneResolve, fixedLoc]
  split_ifs <;> omega

/-! ### Handler lemmas -/

/-- A successfully built `Request` needs a value under every one of the
ten form keys (otherwise one of the `[0]` indexings would have
panicked). -/
theorem decodeCmdRequest_fields (q : List (String × String)) (req : CmdRequest)
    (h : decodeCmdRequest q = some req) :
    getAll q "token" ≠ [] ∧ getAll q "team_id" ≠ [] ∧ getAll q "team_domain" ≠ [] ∧
    getAll q "channel_id" ≠ [] ∧ getAll q "channel_name" ≠ [] ∧ getAll q "user_id" ≠ [] ∧
    getAll q "user_name" ≠ [] ∧ getAll q "text" ≠ [] ∧ getAll q "trigger_id" ≠ [] ∧
    getAll q "response_url" ≠ [] := by
  unfold decodeCmdRequest at h
  split at h
  case _ h1 h2 h3 h4 h5 h6 h7 h8 h9 h10 =>
    refine ⟨?_, ?_, ?_, ?_, ?_, ?_, ?_, ?_, ?_, ?_⟩ <;> intro hemp
    · rw [hemp] at h1; simp at h1
    · rw [hemp] at h2; simp at h2
    · rw [hemp] at h3; simp at h3
    · rw [hemp] at h4; simp at h4
    · rw [hemp] at h5; simp at h5
    · rw [hemp] at h6; simp at h6
    · rw [hemp] at h7; simp at h7
    · rw [hemp] at h8; simp at h8
    · rw [hemp] at h9; simp at h9
    · rw [hemp] at h10; simp at h10
  case _ => exact absurd h (by simp)

/-- Whenever `getSummary` runs it scans the store first. -/
theorem getSummary_scanStore_mem (request : CmdRequest) (now : GoTime)
    (so : SummaryOracles) :
    OutCall.scanStore ∈ (getSummary request now so).1 := by
  rcases so with ⟨⟨wins, se⟩, ne, pe, ae⟩
  cases se <;> cases ne <;> cases pe <;> cases ae <;> simp [getSummary]

/-- Every win old enough contributes its row to the summary. -/
theorem winsSummary_complete (now : GoTime) (w : Win) (wins : List Win)
    (hw : w ∈ wins) (h : olderThan12h now w = true) :
    rowOf w ∈ winsSummaryOf now wins := by
  induction wins with
  | nil => cases hw
  | cons x xs ih =>
    rcases List.mem_cons.mp hw with hx | hx
    · subst hx
      simp only [winsSummaryOf, h]
      simp
    · simp only [winsSummaryOf]
      by_cases hc : olderThan12h now x <;> simp [hc, ih hx]

/-- Every row of the summary comes from a win old enough. -/
theorem winsSummary_sound (now : GoTime) (r : WinSummary) (wins : List Win)
    (hr : r ∈ winsSummaryOf now wins) :
    ∃ w, w ∈ wins ∧ r = rowOf w ∧ olderThan12h now w = true := by
  induction wins with
  | nil => simp [winsSummaryOf] at hr
  | cons x xs ih =>
    simp only [winsSummaryOf] at hr
    by_cases hc : olderThan12h now x
    · rw [if_pos hc] at hr
      rcases List.mem_cons.mp hr with hx | hx
      · exact ⟨x, List.mem_cons_self x xs, hx, hc⟩
      · rcases ih hx with ⟨w, h1, h2, h3⟩
        exact ⟨w, List.mem_cons_of_mem x h1, h2, h3⟩
    · rw [if_neg hc] at hr
      rcases ih hr with ⟨w, h1, h2, h3⟩
      exact ⟨w, List.mem_cons_of_mem x h1, h2, h3⟩

/-! ### Claims -/

/-- C1: for every Command Intake request whose body parses and decodes
(all ten fields present) and whose decoded token differs from the
configured secret, the handler answers exactly the 400 response with the
descriptive body and the JSON content type, and issues no outbound call
(no store scan, no summary delivery, no dialog-open). -/
theorem cmd_wrong_token_400_no_calls (env : CmdEnv) (now : GoTime) (o : CmdOracles)
    (body : String) (req : CmdRequest)
    (hparse : urlParseFails body = false)
    (hdec : decodeCmdRequest (parseQuery (rawQueryOf body)) = some req)
    (htok : req.token ≠ env.slackVerificationToken) :
    cmdHandler env now o body =
      .resp ⟨400, false,
        "KanowinsCommand submitting - error: invalid verification token",
        ctJson⟩ [] := by
  simp only [cmdHandler, hparse, Bool.false_eq_true, if_false, hdec, if_pos htok]

/-- C1 witness: a concrete request with a wrong token gets the 400
response and an empty call list. -/
theorem cmd_wrong_token_witness :
    cmdHandler ⟨"s3cret", "at"⟩ ⟨0, utcLoc⟩ ⟨⟨([], none), none, none, none⟩, none, none⟩
      "token=wrong&team_id=T&team_domain=D&channel_id=C&channel_name=N&user_id=U&user_name=V&text=hello&trigger_id=TR&response_url=u" =
      .resp ⟨400, false,
        "KanowinsCommand submitting - error: invalid verification token",
        ctJson⟩ [] :=
  cmd_wrong_token_400_no_calls _ _ _ _
    ⟨"wrong", "T", "D", "C", "N", "U", "V", "hello", "TR", "u"⟩
    (by decide) (by decide) (by decide)

/-- C2: a win's row appears in the summary exactly when its age exceeds
12 hours strictly (43200 seconds): membership in both directions, and
the concrete 11h/12h/13h scenario where only the 13h-old win is kept. -/
theorem summary_filter_12h (now : GoTime) (wins : List Win) :
    (∀ w ∈ wins, 43200 < now.unix - w.created_at.unix →
      rowOf w ∈ winsSummaryOf now wins) ∧
    (∀ r ∈ winsSummaryOf now wins,
      ∃ w, w ∈ wins ∧ r = rowOf w ∧ 43200 < now.unix - w.created_at.unix) ∧
    (∀ (w11 w12 w13 : Win),
      w11.created_at.unix = now.unix - 39600 →
      w12.created_at.unix = now.unix - 43200 →
      w13.created_at.unix = now.unix - 46800 →
      winsSummaryOf now [w11, w12, w13] = [rowOf w13]) := by
  refine ⟨?_, ?_, ?_⟩
  · intro w hw hage
    exact winsSummary_complete now w wins hw (by simp [olderThan12h]; omega)
  · intro r hr
    rcases winsSummary_sound now r wins hr with ⟨w, h1, h2, h3⟩
    refine ⟨w, h1, h2, ?_⟩
    simpa [olderThan12h] using h3
  · intro w11 w12 w13 h11 h12 h13
    have c1 : olderThan12h now w11 = false := by
      simp only [olderThan12h, h11, decide_eq_false_iff_not, not_lt]; omega
    have c2 : olderThan12h now w12 = false := by
      simp only [olderThan12h, h12, decide_eq_false_iff_not, not_lt]; omega
    have c3 : olderThan12h now w13 = true := by
      simp only [olderThan12h, h13, decide_eq_true_eq]; omega
    simp [winsSummaryOf, c1, c2, c3]

/-- C2 witness: three concrete wins aged 11h, 12h and 13h; only the
13h-old one is in the report. -/
theorem summary_filter_12h_witness :
    winsSummaryOf ⟨100000, utcLoc⟩
      [⟨"u1", "n1", "w1", "t1", "d1", ⟨60400, utcLoc⟩, ⟨60400, utcLoc⟩, 0⟩,
       ⟨"u2", "n2", "w2", "t2", "d2", ⟨56800, utcLoc⟩, ⟨56800, utcLoc⟩, 0⟩,
       ⟨"u3", "n3", "w3", "t3", "d3", ⟨53200, utcLoc⟩, ⟨53200, utcLoc⟩, 0⟩]
      = [rowOf ⟨"u3", "n3", "w3", "t3", "d3", ⟨53200, utcLoc⟩, ⟨53200, utcLoc⟩, 0⟩] :=
  (summary_filter_12h ⟨100000, utcLoc⟩
      [⟨"u1", "n1", "w1", "t1", "d1", ⟨60400, utcLoc⟩, ⟨60400, utcLoc⟩, 0⟩,
       ⟨"u2", "n2", "w2", "t2", "d2", ⟨56800, utcLoc⟩, ⟨56800, utcLoc⟩, 0⟩,
       ⟨"u3", "n3", "w3", "t3", "d3", ⟨53200, utcLoc⟩, ⟨53200, utcLoc⟩, 0⟩]).2.2
    _ _ _ (by decide) (by decide) (by decide)

/-- C3 counterexample: `TTL = UpdatedAt.AddDate(0,0,7).Unix()` is seven
CALENDAR days, not 604800 seconds.  A win submitted in US Eastern time
six days before the 2019 spring-forward transition is persisted with a
TTL only 601200 seconds (7 days minus the skipped hour) after
`updated_at`. -/
theorem ttl_dst_counterexample :
    ((putItem ⟨"dialog_submission", ⟨"Bob", "Shipped feature", ""⟩, "submit-win",
        ⟨"U1", "bob"⟩, "1", "t", "u"⟩
        ⟨1551800000, nyMarch2019Loc⟩ none none).2.map
      (fun w => (w.ttl, w.updated_at.unix))) = some (1552401200, 1551800000) ∧
    (1552401200 : Int) ≠ 1551800000 + 604800 := by
  constructor
  · decide
  · decide

/-- C3 amended: when the location's UTC offset never changes (any
fixed-offset location, in particular UTC, the platform default), every
persisted win's TTL is exactly `updated_at + 604800` seconds. -/
theorem ttl_seven_days_fixed_offset (req : IRequest) (u c : Int)
    (dbErr putErr : Option String) (w : Win)
    (h : (putItem req ⟨u, fixedLoc c⟩ dbErr putErr).2 = some w) :
    w.ttl = w.updated_at.unix + 604800 := by
  unfold putItem at h
  cases dbErr with
  | some e => simp at h
  | none =>
    cases putErr with
    | some e => simp at h
    | none =>
      simp only [Option.some.injEq] at h
      subst h
      simpa using addDate7_fixedLoc u c

/-- C3 witness: a concrete UTC submission is stored with
`ttl = updated_at + 604800`. -/
theorem ttl_seven_days_witness :
    (⟨"U1", "bob", "Bob", "Shipped feature", "Big WIN!", ⟨1700000000, fixedLoc 0⟩,
        ⟨1700000000, fixedLoc 0⟩, 1700604800⟩ : Win).ttl =
      (⟨"U1", "bob", "Bob", "Shipped feature", "Big WIN!", ⟨1700000000, fixedLoc 0⟩,
        ⟨1700000000, fixedLoc 0⟩, 1700604800⟩ : Win).updated_at.unix + 604800 :=
  ttl_seven_days_fixed_offset
    ⟨"dialog_submission", ⟨"Bob", "Shipped feature", ""⟩, "submit-win", ⟨"U1", "bob"⟩,
      "1", "t", "u"⟩ 1700000000 0 none none _ (by rfl)

/-- C4: the persisted description is the placeholder `"Big WIN!"` exactly
when the submitted description is empty, and the submitted value
unchanged otherwise. -/
theorem putitem_description (req : IRequest) (now : GoTime)
    (dbErr putErr : Option String) (w : Win)
    (h : (putItem req now dbErr putErr).2 = some w) :
    (req.submission.description = "" → w.description = "Big WIN!") ∧
    (req.submission.description ≠ "" → w.description = req.submission.description) := by
  unfold putItem at h
  cases dbErr with
  | some e => simp at h
  | none =>
    cases putErr with
    | some e => simp at h
    | none =>
      simp only [Option.some.injEq] at h
      subst h
      constructor
      · intro he
        simp [he]
      · intro he
        have hlen : req.submission.description.length ≠ 0 := by
          intro hlen
          exact he (String.ext (List.length_eq_zero.mp hlen))
        simp [hlen]

/-- C4 witness: the Bob/Shipped-feature submission with empty description
is stored with description `"Big WIN!"`. -/
theorem putitem_description_witness :
    (("" : String) = "" →
      (⟨"U1", "bob", "Bob", "Shipped feature", "Big WIN!", ⟨0, fixedLoc 0⟩,
        ⟨0, fixedLoc 0⟩, 604800⟩ : Win).description = "Big WIN!") ∧
    (("" : String) ≠ "" →
      (⟨"U1", "bob", "Bob", "Shipped feature", "Big WIN!", ⟨0, fixedLoc 0⟩,
        ⟨0, fixedLoc 0⟩, 604800⟩ : Win).description = "") :=
  putitem_description
    ⟨"dialog_submission", ⟨"Bob", "Shipped feature", ""⟩, "submit-win", ⟨"U1", "bob"⟩,
      "1", "t", "u"⟩ ⟨0, fixedLoc 0⟩ none none _ (by rfl)

/-- C5 counterexample: an interaction payload with empty `who` and
`title` is persisted verbatim — the write path performs no validation,
so the store does receive a win with empty `who` and `title`. -/
theorem who_empty_persisted :
    ((putItem ⟨"dialog_submission", ⟨"", "", "x"⟩, "submit-win", ⟨"U", "n"⟩, "1", "t", "u"⟩
        ⟨0, utcLoc⟩ none none).2.map (fun w => (w.who, w.title))) = some ("", "") := by
  decide

/-- C5 amended: Dialog Capture copies `who` and `title` into the
persisted win verbatim without validating them, so they are non-empty
exactly when the submitted values are non-empty. -/
theorem who_title_passthrough (req : IRequest) (now : GoTime)
    (dbErr putErr : Option String) (w : Win)
    (h : (putItem req now dbErr putErr).2 = some w) :
    w.who = req.submission.who ∧ w.title = req.submission.title ∧
    (w.who = "" ↔ req.submission.who = "") ∧
    (w.title = "" ↔ req.submission.title = "") := by
  unfold putItem at h
  cases dbErr with
  | some e => simp at h
  | none =>
    cases putErr with
    | some e => simp at h
    | none =>
      simp only [Option.some.injEq] at h
      subst h
      simp

/-- C5 amended witness: the Bob submission is stored with its `who` and
`title` fields verbatim. -/
theorem who_title_passthrough_witness :
    (⟨"U1", "bob", "Bob", "Shipped feature", "Big WIN!", ⟨0, fixedLoc 0⟩,
        ⟨0, fixedLoc 0⟩, 604800⟩ : Win).who = "Bob" ∧
    (⟨"U1", "bob", "Bob", "Shipped feature", "Big WIN!", ⟨0, fixedLoc 0⟩,
        ⟨0, fixedLoc 0⟩, 604800⟩ : Win).title = "Shipped feature" ∧
    ((⟨"U1", "bob", "Bob", "Shipped feature", "Big WIN!", ⟨0, fixedLoc 0⟩,
        ⟨0, fixedLoc 0⟩, 604800⟩ : Win).who = "" ↔ ("Bob" : String) = "") ∧
    ((⟨"U1", "bob", "Bob", "Shipped feature", "Big WIN!", ⟨0, fixedLoc 0⟩,
        ⟨0, fixedLoc 0⟩, 604800⟩ : Win).title = "" ↔
      ("Shipped feature" : String) = "") :=
  who_title_passthrough
    ⟨"dialog_submission", ⟨"Bob", "Shipped feature", ""⟩, "submit-win", ⟨"U1", "bob"⟩,
      "1", "t", "u"⟩ ⟨0, fixedLoc 0⟩ none none _ (by rfl)

/-- C6 counterexample: the handler compares `strings.ToLower(text)`
against `"summary"` WITHOUT trimming.  With the argument `" summary "`
(whose trimmed, lowercased form is `"summary"`) and a store scan primed
to fail, the summary flow is not invoked: the response is the plain 200
dialog flow with no store scan and no summary delivery, where an invoked
summary would have produced the 400 `scanfail` response. -/
theorem cmd_trimmed_summary_not_triggered :
    cmdHandler ⟨"s", "a"⟩ ⟨0, utcLoc⟩ ⟨⟨([], some "scanfail"), none, none, none⟩, none, none⟩
      "token=s&team_id=T&team_domain=D&channel_id=C&channel_name=N&user_id=U&user_name=V&text=+summary+&trigger_id=TR&response_url=u"
      = .resp ⟨200, false, "", ctJson⟩ [.dialogOpen "TR"] ∧
    sToLower (trimSpace " summary ") = "summary" := by
  constructor
  · decide
  · decide

/-- C6 amended: with a well-formed body and a correct token, the Summary
Aggregator is invoked (the store scan happens) exactly when the
LOWERCASED — but untrimmed — command argument equals `"summary"`; an
argument with surrounding whitespace does not trigger it. -/
theorem cmd_summary_routing (env : CmdEnv) (now : GoTime) (o : CmdOracles)
    (body : String) (req : CmdRequest)
    (hparse : urlParseFails body = false)
    (hdec : decodeCmdRequest (parseQuery (rawQueryOf body)) = some req)
    (htok : req.token = env.slackVerificationToken) :
    (OutCall.scanStore ∈ callsOf (cmdHandler env now o body)) ↔
      sToLower req.text = "summary" := by
  have htok' : ¬ (req.token ≠ env.slackVerificationToken) := fun hne => hne htok
  simp only [cmdHandler, hparse, Bool.false_eq_true, if_false, hdec, if_neg htok']
  by_cases hs : sToLower req.text = "summary"
  · simp only [hs, if_pos rfl]
    rcases hg : getSummary req now o.summary with ⟨calls, wins, err⟩
    have hmem : OutCall.scanStore ∈ calls := by
      have hm := getSummary_scanStore_mem req now o.summary
      rw [hg] at hm; exact hm
    cases err <;> simp [callsOf, hmem, hs]
  · simp only [if_neg hs, callsOf]
    simp [hs]

/-- C6 amended witness: `"SUMMARY"` (lowercased equal to `"summary"`)
does route into the summary flow. -/
theorem cmd_summary_routing_witness :
    (OutCall.scanStore ∈ callsOf (cmdHandler ⟨"s", "a"⟩ ⟨0, utcLoc⟩
      ⟨⟨([], some "scanfail"), none, none, none⟩, none, none⟩
      "token=s&team_id=T&team_domain=D&channel_id=C&channel_name=N&user_id=U&user_name=V&text=SUMMARY&trigger_id=TR&response_url=u")) ↔
      sToLower "SUMMARY" = "summary" :=
  cmd_summary_routing _ _ _ _ ⟨"s", "T", "D", "C", "N", "U", "V", "SUMMARY", "TR", "u"⟩
    (by decide) (by decide) (by decide)

/-- C7 counterexample: the argument `"SUMMARY"` is not equal to
`"summary"` as a string, so the claim promises one dialog-open call and
a 200; but the handler lowercases it, enters the summary flow, and a
failing store scan yields a 400 with NO dialog-open call. -/
theorem cmd_upper_summary_400 :
    cmdHandler ⟨"s", "a"⟩ ⟨0, utcLoc⟩ ⟨⟨([], some "scanfail"), none, none, none⟩, none, none⟩
      "token=s&team_id=T&team_domain=D&channel_id=C&channel_name=N&user_id=U&user_name=V&text=SUMMARY&trigger_id=TR&response_url=u"
      = .resp ⟨400, false, "KanowinsCommand summary - error: scanfail", ctJson⟩ [.scanStore] ∧
    ("SUMMARY" : String) ≠ "summary" := by
  constructor
  · decide
  · decide

/-- C7 amended: with a well-formed body, a correct token and a command
argument whose LOWERCASED form differs from `"summary"`, the handler
issues exactly one dialog-open call and returns 200 with the JSON
content type, independently of every oracle — in particular whether the
dialog-open call or its response decoding fails. -/
theorem cmd_dialog_flow (env : CmdEnv) (now : GoTime) (o : CmdOracles)
    (body : String) (req : CmdRequest)
    (hparse : urlParseFails body = false)
    (hdec : decodeCmdRequest (parseQuery (rawQueryOf body)) = some req)
    (htok : req.token = env.slackVerificationToken)
    (hs : sToLower req.text ≠ "summary") :
    cmdHandler env now o body =
      .resp ⟨200, false, "", ctJson⟩ [.dialogOpen req.triggerId] := by
  have htok' : ¬ (req.token ≠ env.slackVerificationToken) := fun hne => hne htok
  simp only [cmdHandler, hparse, Bool.false_eq_true, if_false, hdec, if_neg htok',
    if_neg hs]

/-- C7 amended witness: a concrete request whose dialog-open call and
acknowledgement decode both fail still gets the 200 with exactly one
dialog-open call. -/
theorem cmd_dialog_flow_witness :
    cmdHandler ⟨"s", "a"⟩ ⟨0, utcLoc⟩ ⟨⟨([], some "scanfail"), some "x", some "y", some "z"⟩,
        some "dialog send failed", some "bad ack"⟩
      "token=s&team_id=T&team_domain=D&channel_id=C&channel_name=N&user_id=U&user_name=V&text=hello&trigger_id=TR&response_url=u"
      = .resp ⟨200, false, "", ctJson⟩ [.dialogOpen "TR"] :=
  cmd_dialog_flow _ _ _ _ ⟨"s", "T", "D", "C", "N", "U", "V", "hello", "TR", "u"⟩
    (by decide) (by decide) (by decide) (by decide)

/-- C9 counterexample: `getSummary` assigns the acknowledgement decode's
error to its named return just before returning, so a malformed
acknowledgement body makes the summary invocation fail even though the
store read and the delivery POST both succeeded — and the handler turns
it into a 400. -/
theorem summary_ack_decode_error_propagates :
    getSummary ⟨"s", "T", "D", "C", "N", "U", "V", "summary", "TR", "u"⟩ ⟨0, utcLoc⟩
      ⟨([], none), none, none, some "invalid character"⟩
      = ([.scanStore, .summaryPost "u" []], [], some "invalid character") ∧
    cmdHandler ⟨"s", "a"⟩ ⟨0, utcLoc⟩
        ⟨⟨([], none), none, none, some "invalid character"⟩, none, none⟩
      "token=s&team_id=T&team_domain=D&channel_id=C&channel_name=N&user_id=U&user_name=V&text=summary&trigger_id=TR&response_url=u"
      = .resp ⟨400, false, "KanowinsCommand summary - error: invalid character", ctJson⟩
          [.scanStore, .summaryPost "u" []] := by
  constructor
  · rfl
  · decide

/-- C9 amended: `getSummary` returns an error exactly when the store
read, the request construction for the callback URL, the delivery POST,
or the decoding of the platform's acknowledgement fails; and whenever it
returns an error the Command handler answers 400 with that error text. -/
theorem summary_error_propagation :
    (∀ (request : CmdRequest) (now : GoTime) (so : SummaryOracles),
      ((getSummary request now so).2.2).isSome ↔
        (so.scan.2.isSome ∨ so.newReqErr.isSome ∨ so.postErr.isSome ∨ so.ackErr.isSome)) ∧
    (∀ (env : CmdEnv) (now : GoTime) (o : CmdOracles) (body : String) (req : CmdRequest)
        (e : String),
      urlParseFails body = false →
      decodeCmdRequest (parseQuery (rawQueryOf body)) = some req →
      req.token = env.slackVerificationToken →
      sToLower req.text = "summary" →
      (getSummary req now o.summary).2.2 = some e →
      cmdHandler env now o body =
        .resp ⟨400, false, "KanowinsCommand summary - error: " ++ e, ctJson⟩
          (getSummary req now o.summary).1) := by
  constructor
  · intro request now so
    rcases so with ⟨⟨wins, se⟩, ne, pe, ae⟩
    cases se <;> cases ne <;> cases pe <;> cases ae <;> simp [getSummary]
  · intro env now o body req e hparse hdec htok hs herr
    have htok' : ¬ (req.token ≠ env.slackVerificationToken) := fun hne => hne htok
    simp only [cmdHandler, hparse, Bool.false_eq_true, if_false, hdec, if_neg htok',
      if_pos hs]
    rcases hg : getSummary req now o.summary with ⟨calls, wins, err⟩
    rw [hg] at herr
    simp only at herr
    subst herr
    simp

/-- C9 amended witness: a failing delivery POST makes the summary return
an error, and the handler answers 400 with that error text. -/
theorem summary_error_propagation_witness :
    ((getSummary ⟨"s", "T", "D", "C", "N", "U", "V", "summary", "TR", "u"⟩ ⟨0, utcLoc⟩
        ⟨([], none), none, some "connection refused", none⟩).2.2).isSome ∧
    cmdHandler ⟨"s", "a"⟩ ⟨0, utcLoc⟩
        ⟨⟨([], none), none, some "connection refused", none⟩, none, none⟩
        "token=s&team_id=T&team_domain=D&channel_id=C&channel_name=N&user_id=U&user_name=V&text=summary&trigger_id=TR&response_url=u"
      = .resp ⟨400, false, "KanowinsCommand summary - error: connection refused", ctJson⟩
          (getSummary ⟨"s", "T", "D", "C", "N", "U", "V", "summary", "TR", "u"⟩ ⟨0, utcLoc⟩
            ⟨([], none), none, some "connection refused", none⟩).1 := by
  constructor
  · exact (summary_error_propagation.1 ⟨"s", "T", "D", "C", "N", "U", "V", "summary", "TR", "u"⟩
      ⟨0, utcLoc⟩ ⟨([], none), none, some "connection refused", none⟩).mpr
      (Or.inr (Or.inr (Or.inl rfl)))
  · exact summary_error_propagation.2 _ _
      ⟨⟨([], none), none, some "connection refused", none⟩, none, none⟩ _
      ⟨"s", "T", "D", "C", "N", "U", "V", "summary", "TR", "u"⟩ "connection refused"
      (by decide) (by decide) (by decide) (by decide) (by rfl)

/-- C10: when the form body lacks any of the ten expected Command fields
(or the `payload` field for Dialog Capture), the `[0]` indexing of the
empty value list panics and the handler produces no HTTP response. -/
theorem missing_field_panics :
    (∀ (env : CmdEnv) (now : GoTime) (o : CmdOracles) (body : String),
      (getAll (parseQuery (rawQueryOf body)) "token" = [] ∨
       getAll (parseQuery (rawQueryOf body)) "team_id" = [] ∨
       getAll (parseQuery (rawQueryOf body)) "team_domain" = [] ∨
       getAll (parseQuery (rawQueryOf body)) "channel_id" = [] ∨
       getAll (parseQuery (rawQueryOf body)) "channel_name" = [] ∨
       getAll (parseQuery (rawQueryOf body)) "user_id" = [] ∨
       getAll (parseQuery (rawQueryOf body)) "user_name" = [] ∨
       getAll (parseQuery (rawQueryOf body)) "text" = [] ∨
       getAll (parseQuery (rawQueryOf body)) "trigger_id" = [] ∨
       getAll (parseQuery (rawQueryOf body)) "response_url" = []) →
      cmdHandler env now o body = .panic) ∧
    (∀ (body : String) (dec : Except (String × IRequest) IRequest) (now : GoTime)
        (dbErr putErr : Option String),
      getAll (parseQuery (rawQueryOf body)) "payload" = [] →
      icHandler body dec now dbErr putErr = .panic) := by
  constructor
  · intro env now o body hmiss
    by_cases hup : urlParseFails body = true
    · simp [cmdHandler, hup]
    · have hup' : urlParseFails body = false := by
        revert hup; cases urlParseFails body <;> simp
      cases hdec : decodeCmdRequest (parseQuery (rawQueryOf body)) with
      | none => simp [cmdHandler, hup', hdec]
      | some req =>
        exfalso
        have hf := decodeCmdRequest_fields _ _ hdec
        rcases hmiss with h|h|h|h|h|h|h|h|h|h
        · exact hf.1 h
        · exact hf.2.1 h
        · exact hf.2.2.1 h
        · exact hf.2.2.2.1 h
        · exact hf.2.2.2.2.1 h
        · exact hf.2.2.2.2.2.1 h
        · exact hf.2.2.2.2.2.2.1 h
        · exact hf.2.2.2.2.2.2.2.1 h
        · exact hf.2.2.2.2.2.2.2.2.1 h
        · exact hf.2.2.2.2.2.2.2.2.2 h
  · intro body dec now dbErr putErr hmiss
    by_cases hup : urlParseFails body = true
    · simp [icHandler, hup]
    · have hup' : urlParseFails body = false := by
        revert hup; cases urlParseFails body <;> simp
      simp [icHandler, hup', hmiss]

/-- C10 witness: the body `"x=1"` omits every expected field; both
handlers panic on it. -/
theorem missing_field_panics_witness :
    cmdHandler ⟨"s", "a"⟩ ⟨0, utcLoc⟩ ⟨⟨([], none), none, none, none⟩, none, none⟩ "x=1"
        = .panic ∧
    icHandler "x=1" (.ok zeroIRequest) ⟨0, utcLoc⟩ none none = .panic :=
  ⟨missing_field_panics.1 _ _ _ "x=1" (Or.inl (by decide)),
   missing_field_panics.2 "x=1" _ _ _ _ (by decide)⟩

/-- C8 counterexample: a body with no `payload` field makes Dialog
Capture panic instead of returning any response, so "returns 200 for
every input" fails on the empty body. -/
theorem ic_empty_body_panics :
    icHandler "" (.error ("unexpected end of JSON input", zeroIRequest)) ⟨0, utcLoc⟩
        (some "db down") none = .panic ∧
    ICOutcome.panic ≠ .resp ⟨200, false, "", ctJson⟩ := by
  constructor
  · decide
  · decide

/-- C8 amended: for every input whose form body parses and contains a
`payload` field, Dialog Capture returns 200 with an empty body and the
JSON content type — regardless of the payload decode outcome and of the
store session/write errors. -/
theorem ic_returns_200 (body : String) (dec : Except (String × IRequest) IRequest)
    (now : GoTime) (dbErr putErr : Option String) (p : String)
    (hparse : urlParseFails body = false)
    (hpay : (getAll (parseQuery (rawQueryOf body)) "payload").head? = some p) :
    icHandler body dec now dbErr putErr = .resp ⟨200, false, "", ctJson⟩ := by
  simp only [icHandler, hparse, Bool.false_eq_true, if_false, hpay]

/-- C8 amended witness: a malformed payload plus a failing store session
still gets the 200 empty response. -/
theorem ic_returns_200_witness :
    icHandler "payload=notjson" (.error ("invalid character", zeroIRequest)) ⟨0, utcLoc⟩
      (some "db down") none = .resp ⟨200, false, "", ctJson⟩ :=
  ic_returns_200 _ _ _ _ _ "notjson" (by decide) (by decide)
